import Mathlib

/-!
Verification of the Poliedro scripts (check_downloads.py, zoom_downloader.py,
batch_rename.py) against their natural-language specification.

Strings are modelled as Lean `String`s; the Python-level operations
(`str.strip`, `str.endswith`, slicing, `str.replace`, `pathlib.Path.stem`,
`str.rsplit`) are implemented over the underlying character lists so that
every definition is executable and kernel-reducible.

The external `dateparser.parse` library call is not part of this repository;
it is abstracted as a parameter `dp : String -> Option PyDate` wherever a
date is parsed.  All repository code is translated directly from the source.
-/

namespace Scripts

/-- A parsed calendar date, the abstraction of a successful
`dateparser.parse` result (only the fields the scripts format). -/
structure PyDate where
  year : Nat
  month : Nat
  day : Nat
deriving DecidableEq, Repr

/-- Zero-padded decimal rendering, as CPython `strftime` does for
`%Y` (width 4), `%m` and `%d` (width 2). -/
def pad (w : Nat) (n : Nat) : String :=
  let s := Nat.repr n
  ⟨List.replicate (w - s.data.length) '0' ++ s.data⟩

/-- Python `s.strip(chars)`: remove leading and trailing characters
belonging to `cs`. -/
def pyStripChars (cs : List Char) (l : List Char) : List Char :=
  ((l.dropWhile (· ∈ cs)).reverse.dropWhile (· ∈ cs)).reverse

/-- The whitespace characters stripped by Python's no-argument `str.strip()`. -/
def wsChars : List Char := [' ', '\t', '\n', '\x0b', '\x0c', '\r']

/-- Python `s.strip()` on a `String`. -/
def pyStripWs (s : String) : String := ⟨pyStripChars wsChars s.data⟩

/-- Python `s.lower()` (ASCII-adequate model; the headers the scripts
lower-case are plain Latin text). -/
def pyLower (s : String) : String := ⟨s.data.map Char.toLower⟩

/-- Python `s.endswith(suf)`. -/
def pyEndsWith (s suf : String) : Bool := List.isSuffixOf suf.data s.data

/-- Python slicing `s[:-n]` (for `n ≤ len(s)`): drop the last `n` characters. -/
def pyDropRight (s : String) (n : Nat) : String :=
  ⟨s.data.take (s.data.length - n)⟩

/-- Fuel-indexed core of Python `str.replace`: scan left to right, replacing
each non-overlapping occurrence of `pat` and resuming after it.  The fuel is
the length of the scanned list, which bounds the recursion. -/
def replaceAllAux (pat repl : List Char) : Nat → List Char → List Char
  | 0, s => s
  | _ + 1, [] => []
  | fuel + 1, c :: rest =>
    if pat ≠ [] ∧ pat = (c :: rest).take pat.length then
      repl ++ replaceAllAux pat repl fuel ((c :: rest).drop pat.length)
    else
      c :: replaceAllAux pat repl fuel rest

/-- Python `s.replace(pat, repl)` (the scripts never call it with an empty
pattern, so that Python edge case is irrelevant here). -/
def pyReplace (s pat repl : String) : String :=
  ⟨replaceAllAux pat.data repl.data s.data.length s.data⟩

/-- `pathlib.Path.stem`: the file name with its last suffix removed; the
suffix only counts when the last dot is neither the first nor the last
character. -/
def pyStem (s : String) : String :=
  let r := s.data.reverse
  match r.findIdx? (· == '.') with
  | some i => if 0 < i ∧ i + 1 < s.data.length then ⟨(r.drop (i + 1)).reverse⟩ else s
  | none => s

/-- Python `s.rsplit(c, 1)[0]`: everything before the last occurrence of `c`,
or the whole string when `c` does not occur. -/
def pyRsplitHead (s : String) (c : Char) : String :=
  match s.data.reverse.findIdx? (· == c) with
  | some i => ⟨(s.data.reverse.drop (i + 1)).reverse⟩
  | none => s

/-! ## sanitize_filename (check_downloads.py lines 22-27, identical copy in
zoom_downloader.py lines 15-20) -/

/-- The character class of the regex `[<>:"/\\|?*]`. -/
def invalidChars : List Char := ['<', '>', ':', '"', '/', '\\', '|', '?', '*']

/-- `re.sub(invalid_chars, '_', name)` then `.strip('. ')` then truncation
to 200 characters, on character lists. -/
def sanitizeChars (l : List Char) : List Char :=
  let sanitized := l.map fun c => if c ∈ invalidChars then '_' else c
  let stripped := pyStripChars ['.', ' '] sanitized
  if stripped.length > 200 then stripped.take 200 else stripped

/-- `sanitize_filename` from the scripts. -/
def sanitize_filename (s : String) : String := ⟨sanitizeChars s.data⟩

/-! ## Date normalization (check_downloads.py lines 30-39,
zoom_downloader.py lines 23-32) -/

/-- `parse_date` from check_downloads.py: on parser success format
`%Y-%m-%d`, otherwise return the input unchanged. -/
def parse_date (dp : String → Option PyDate) (s : String) : String :=
  match dp s with
  | some d => pad 4 d.year ++ "-" ++ pad 2 d.month ++ "-" ++ pad 2 d.day
  | none => s

/-- `parse_portuguese_date` from zoom_downloader.py: on parser success
format `2025-%m-%d` (the year is the literal text `2025`), otherwise
return the input unchanged. -/
def parse_portuguese_date (dp : String → Option PyDate) (s : String) : String :=
  match dp s with
  | some d => "2025-" ++ pad 2 d.month ++ "-" ++ pad 2 d.day
  | none => s

/-! ## Session records and the filename key (check_downloads.py) -/

/-- The entry dictionary built by `load_csv_entries` (check_downloads.py
lines 62-74).  `filename_base` is the key the loader adds after building
the other fields; it is `""` until set. -/
structure Entry where
  disciplina : String
  semestre : String
  data : String
  professor : String
  frente : String
  conteudo : String
  url : String
  filename_base : String
deriving DecidableEq, Repr

/-- `build_filename_base` (check_downloads.py lines 42-48).  The loaded
entry dictionary has no `title` key, so `row.get('conteudo','') or
row.get('title','')` is `conteudo` when non-empty and `""` otherwise. -/
def build_filename_base (dp : String → Option PyDate) (e : Entry) : String :=
  let date_formatted := parse_date dp e.data
  let title := if e.conteudo = "" then "" else e.conteudo
  sanitize_filename
    (e.semestre ++ " - " ++ e.disciplina ++ " - " ++ e.frente ++ " - " ++
      date_formatted ++ " - " ++ title)

/-! ## Record loader of check_downloads.py (lines 51-76)

`csv.DictReader` pairs the header's field names with the row's values;
a row shorter than the header fills the missing values with `None`
(`restval`), a row longer than the header stores the excess under the
key `None` (`restkey`), and a row that is the empty list is skipped.
The dictionary comprehension `{k.lower().strip(): v.strip() ...}` then
raises `AttributeError` whenever a value (or the restkey) is `None`;
those uncaught exceptions are modelled as `Except.error ()`. -/

/-- The header/value pairing performed by `csv.DictReader`: missing
values become `none` (Python `restval = None`). -/
def dict_row : List String → List String → List (String × Option String)
  | [], _ => []
  | h :: hs, [] => (h, none) :: dict_row hs []
  | h :: hs, v :: vs => (h, some v) :: dict_row hs vs

/-- The item-wise body of `{k.lower().strip(): v.strip() for k, v in
row.items()}`: a `None` value makes `v.strip()` raise
(`AttributeError`, modelled as `Except.error ()`). -/
def strip_items : List (String × Option String) → Except Unit (List (String × String))
  | [] => Except.ok []
  | (k, some v) :: rest =>
    (strip_items rest).map fun tl => (pyStripWs (pyLower k), pyStripWs v) :: tl
  | (_, none) :: _ => Except.error ()

/-- The key normalization of check_downloads.py line 59.  A row longer
than the header gives the dict a `None` key (`restkey`), making
`k.lower()` raise as well. -/
def normalize_row (header row : List String) : Except Unit (List (String × String)) :=
  if header.length < row.length then Except.error ()
  else strip_items (dict_row header row)

/-- Dictionary lookup with default `""`, i.e. `normalized.get(key, '')`.
Duplicate header names cannot arise from the headers the script reads, so
taking the first binding is adequate. -/
def dget (d : List (String × String)) (k : String) : String :=
  match d.find? (fun p => p.1 == k) with
  | some p => p.2
  | none => ""

/-- The entry dictionary of check_downloads.py lines 62-70 (Python's `or`
takes the second operand exactly when the first is the empty string). -/
def mk_entry (d : List (String × String)) : Entry :=
  { disciplina := dget d "disciplina"
    semestre := dget d "semestre"
    data := dget d "data"
    professor := dget d "professor"
    frente := dget d "frente"
    conteudo :=
      if dget d "conteúdo / link da aula" = "" then dget d "conteudo"
      else dget d "conteúdo / link da aula"
    url := if dget d "link" = "" then dget d "url" else dget d "link"
    filename_base := "" }

/-- `load_csv_entries` (check_downloads.py lines 51-76) over an explicit
header row and data rows: normalize each row, keep those with a non-empty
url, and attach the derived `filename_base`. -/
def load_csv_entries (dp : String → Option PyDate) (header : List String)
    (rows : List (List String)) : Except Unit (List Entry) :=
  rows.foldlM
    (fun acc row =>
      if row = [] then Except.ok acc
      else do
        let d ← normalize_row header row
        let e := mk_entry d
        if e.url ≠ "" then
          Except.ok (acc ++ [{ e with filename_base := build_filename_base dp e }])
        else
          Except.ok acc)
    []

/-! ## File scanner (check_downloads.py lines 79-100) -/

/-- `files_by_base`: a `defaultdict(list)` in insertion order. -/
abbrev FileMap := List (String × List String)

/-- Suffix stripping of check_downloads.py lines 88-96, applied to a file
stem. -/
def strip_suffix_base (name : String) : String :=
  if pyEndsWith name " - esq" || pyEndsWith name " - dir" then pyDropRight name 6
  else if pyEndsWith name "_esq" || pyEndsWith name "_dir" then pyDropRight name 4
  else if pyEndsWith name "_screen" || pyEndsWith name "_camera" then pyRsplitHead name '_'
  else name

/-- `files_by_base[base].append(file)` on the insertion-ordered model of
the `defaultdict`. -/
def insert_file (m : FileMap) (k : String) (v : String) : FileMap :=
  match m with
  | [] => [(k, [v])]
  | (k', vs) :: rest =>
    if k' = k then (k', vs ++ [v]) :: rest else (k', vs) :: insert_file rest k v

/-- `scan_download_files` over the directory listing: `pathlib`'s
`glob("*.mp4")` keeps every file name ending in `.mp4` (hidden dot-files
included — pathlib's glob does not exclude them); each file is grouped
under the base obtained by stripping the side suffix from its stem. -/
def scan_download_files (files : List String) : FileMap :=
  (files.filter fun f => pyEndsWith f ".mp4").foldl
    (fun m f => insert_file m (strip_suffix_base (pyStem f)) f) []

/-- All files stored in the mapping, in bucket order (the multiset of
scanned files). -/
def map_vals : FileMap → List String
  | [] => []
  | (_, fs) :: rest => fs ++ map_vals rest

/-! ## Reconciler (check_downloads.py lines 103-229) -/

/-- `files_by_base.get(base, [])`. -/
def lookup_files (m : FileMap) (b : String) : List String :=
  match m with
  | [] => []
  | (k, fs) :: rest => if k = b then fs else lookup_files rest b

/-- The per-entry classification loop (check_downloads.py lines 128-142):
zero files is `missing_all`, one file is `missing_pair` (paired with
`files[0].name`), two or more files is `complete`. -/
def classify_entries (entries : List Entry) (m : FileMap) :
    List Entry × List (Entry × String) × List Entry :=
  match entries with
  | [] => ([], [], [])
  | e :: rest =>
    let fs := lookup_files m e.filename_base
    let (ma, mp, co) := classify_entries rest m
    match fs with
    | [] => (e :: ma, mp, co)
    | [f] => (ma, (e, f) :: mp, co)
    | _ => (ma, mp, e :: co)

/-- `expected_bases`, the set of every loaded entry's `filename_base`
(built during the loop, complete once every entry is processed). -/
def expected_bases (entries : List Entry) : List String :=
  entries.map (·.filename_base)

/-- The orphan scan (check_downloads.py lines 144-148): every file of
every base absent from `expected_bases`, in mapping order. -/
def orphan_files (m : FileMap) (expected : List String) : List String :=
  match m with
  | [] => []
  | (b, fs) :: rest =>
    if b ∈ expected then orphan_files rest expected
    else fs ++ orphan_files rest expected

/-- The pure result of `check_downloads`: the three entry partitions and
the orphan file list. -/
def check_downloads (entries : List Entry) (m : FileMap) :
    (List Entry × List (Entry × String) × List Entry) × List String :=
  (classify_entries entries m, orphan_files m (expected_bases entries))

/-! ## File-system effects of a check_downloads run (lines 188-224) -/

/-- A file-system mutation: the run's observable creations/deletions. -/
inductive FsEffect where
  | create (path : String)
  | delete (path : String)
deriving DecidableEq, Repr

/-- `OUTPUT_DIR` of check_downloads.py. -/
def OUTPUT_DIR : String := "./zoom_downloads"

/-- The file mutations a `check_downloads` run performs: each of the three
report CSVs is written (created) exactly when its list is non-empty
(lines 189, 202, 216); nothing is ever deleted. -/
def check_downloads_effects (entries : List Entry) (m : FileMap) : List FsEffect :=
  let r := check_downloads entries m
  let ma := r.1.1
  let mp := r.1.2.1
  let orph := r.2
  (if ma = [] then [] else [FsEffect.create (OUTPUT_DIR ++ "/check_missing_all.csv")]) ++
  (if mp = [] then [] else [FsEffect.create (OUTPUT_DIR ++ "/check_missing_pair.csv")]) ++
  (if orph = [] then [] else [FsEffect.create (OUTPUT_DIR ++ "/check_orphan_files.csv")])

/-! ## Batch renamer (batch_rename.py) -/

/-- The `RowData` TypedDict of batch_rename.py. -/
structure RowData where
  date : String
  disciplina : String
  frente : String
  conteudo : String
deriving DecidableEq, Repr

/-- One iteration of the CSV parse loop (batch_rename.py lines 55-73):
a line with fewer than 5 columns raises (`Except.error ()` models the
`raise Exception(...)`); otherwise the row is built, formatting a parsed
date as `%m-%d` and falling back to the raw text. -/
def parse_rename_row (dp : String → Option PyDate) (line : List String) :
    Except Unit RowData :=
  if h : line.length < 5 then Except.error ()
  else
    Except.ok
      { date :=
          match dp (line.get ⟨0, by omega⟩) with
          | some d => pad 2 d.month ++ "-" ++ pad 2 d.day
          | none => line.get ⟨0, by omega⟩
        disciplina := line.get ⟨2, by omega⟩
        frente := line.get ⟨3, by omega⟩
        conteudo :=
          pyReplace (pyReplace (line.get ⟨4, by omega⟩) "/" "-") ":" " -" }

/-- The whole CSV parse loop: the first malformed line aborts the run. -/
def parse_rename_rows (dp : String → Option PyDate) :
    List (List String) → Except Unit (List RowData)
  | [] => Except.ok []
  | line :: rest => do
    let r ← parse_rename_row dp line
    let rs ← parse_rename_rows dp rest
    Except.ok (r :: rs)

/-- The name a file is renamed to (batch_rename.py line 87). -/
def new_name (r : RowData) (side : String) : String :=
  r.disciplina ++ " - " ++ r.frente ++ " - " ++ r.date ++ " - " ++
    r.conteudo ++ " - " ++ side ++ ".mp4"

/-- Python `sorted` over the globbed file names (lexicographic string
order). -/
def sort_files (files : List String) : List String :=
  List.insertionSort (· ≤ ·) files

/-- The rename loop (batch_rename.py lines 81-97) as the list of
`(old name, new name)` renames it performs, in order.  `data[i]` out of
range would raise `IndexError`, modelled by `none`; under the count
precondition the index never leaves range. -/
def rename_loop (data : List RowData) :
    List String → Nat → String → Bool → Option (List (String × String))
  | [], _, _, _ => some []
  | f :: fs, i, side, isEven =>
    match data[i]? with
    | none => none
    | some info =>
      let next :=
        if !isEven then rename_loop data fs i "dir" true
        else rename_loop data fs (i + 1) "esq" false
      next.map fun ps => (f, new_name info side) :: ps

/-- `batch_rename.py` after CSV parsing: count the `.mp4` files, raise
(`none`) when the count differs from twice the row count (lines 76-78),
otherwise run the rename loop over the sorted file list. -/
def batch_rename (data : List RowData) (files : List String) :
    Option (List (String × String)) :=
  if files.length ≠ data.length * 2 then none
  else rename_loop data (sort_files files) 0 "esq" false

/-- The rename pairing as the specification words it: the k-th sorted
pair of files is renamed from the k-th row, first file tagged `esq`,
second tagged `dir`.  Modelled from the spec for comparison with
`batch_rename` (refinement). -/
def spec_pair_plan : List RowData → List String → List (String × String)
  | r :: rs, f1 :: f2 :: fs =>
    (f1, new_name r "esq") :: (f2, new_name r "dir") :: spec_pair_plan rs fs
  | _, _ => []

/-! ## Zoom downloader (zoom_downloader.py) -/

/-- A recording row loaded by zoom_downloader.py. -/
structure Recording where
  disciplina : String
  semestre : String
  date : String
  professor : String
  frente : String
  title : String
  url : String
deriving DecidableEq, Repr

/-- `load_recordings_from_csv` (zoom_downloader.py lines 35-61): keep
exactly the rows having at least 7 fields and a non-blank seventh field;
anything shorter is silently skipped. -/
def load_recordings_from_csv (dp : String → Option PyDate)
    (rows : List (List String)) : List Recording :=
  rows.foldl
    (fun acc row =>
      if h : 7 ≤ row.length then
        if pyStripWs (row.get ⟨6, by omega⟩) ≠ "" then
          acc ++ [{ disciplina := pyStripWs (row.get ⟨0, by omega⟩)
                    semestre := pyStripWs (row.get ⟨1, by omega⟩)
                    date := parse_portuguese_date dp (pyStripWs (row.get ⟨2, by omega⟩))
                    professor := pyStripWs (row.get ⟨3, by omega⟩)
                    frente := pyStripWs (row.get ⟨4, by omega⟩)
                    title := pyStripWs (row.get ⟨5, by omega⟩)
                    url := pyStripWs (row.get ⟨6, by omega⟩) }]
        else acc
      else acc)
    []

/-- `build_filename` (zoom_downloader.py lines 64-70): compose the name,
delete every `.mp4` occurrence, sanitize, and append `.mp4`. -/
def build_filename (info : Recording) (side : String) : String :=
  let name :=
    info.semestre ++ " - " ++ info.disciplina ++ " - " ++ info.frente ++ " - " ++
      info.date ++ " - " ++ info.title ++ " - " ++ side ++ ".mp4"
  sanitize_filename (pyReplace name ".mp4" "") ++ ".mp4"

/-! ## Concrete sample data used by witnesses and counterexamples -/

/-- A date parser that fails on every input. -/
def dpNone : String → Option PyDate := fun _ => none

/-- A date parser knowing only the example date `10/fev`. -/
def dp_fev : String → Option PyDate :=
  fun s => if s = "10/fev" then some ⟨2025, 2, 10⟩ else none

/-- The example record of the specification (section 8, item 7). -/
def rec_c6 : Entry :=
  { disciplina := "Matemática", semestre := "2025.1", data := "10/fev",
    professor := "P", frente := "A", conteudo := "Aula 1",
    url := "https://example.test/aula1", filename_base := "" }

/-- The example record as the loader stores it, with its derived key. -/
def rec_c6_loaded : Entry :=
  { rec_c6 with filename_base := build_filename_base dp_fev rec_c6 }

/-- The header row of `zoom_recordings.csv` (zoom_downloader.py line 39). -/
def header7 : List String :=
  ["Disciplina", "Semestre", "Data", "Professor", "Frente",
   "Conteúdo / Link da aula", "Link"]

/-- An entry whose key matches no scanned file. -/
def entry_missing : Entry :=
  { disciplina := "D", semestre := "S", data := "10/fev", professor := "P",
    frente := "F", conteudo := "C", url := "u", filename_base := "k" }

/-- A sample row for the rename-plan witness. -/
def row_w : RowData := { date := "02-10", disciplina := "M", frente := "A", conteudo := "C" }

/-- A recording whose 250-character title drives the built filename into
the 200-character truncation. -/
def rec_long : Recording :=
  { disciplina := "D", semestre := "S", date := "DT", professor := "P",
    frente := "F", title := ⟨List.replicate 250 'a'⟩, url := "U" }

/-! ## Helper lemmas -/

theorem pyStripChars_subset (cs l : List Char) : pyStripChars cs l ⊆ l := by
  intro c hc
  rw [pyStripChars, List.mem_reverse] at hc
  have hc2 := (List.dropWhile_sublist _).subset hc
  rw [List.mem_reverse] at hc2
  exact (List.dropWhile_sublist _).subset hc2

theorem sanitizeChars_no_invalid (l : List Char) :
    ∀ c ∈ sanitizeChars l, c ∉ invalidChars := by
  intro c hc
  have hstr : c ∈ pyStripChars ['.', ' ']
      (l.map fun x => if x ∈ invalidChars then '_' else x) := by
    rw [sanitizeChars] at hc
    split at hc
    · exact (List.take_sublist _ _).subset hc
    · exact hc
  have hmap := pyStripChars_subset _ _ hstr
  rw [List.mem_map] at hmap
  obtain ⟨a, _, rfl⟩ := hmap
  by_cases ha : a ∈ invalidChars
  · rw [if_pos ha]; decide
  · rw [if_neg ha]; exact ha

theorem sanitizeChars_length (l : List Char) : (sanitizeChars l).length ≤ 200 := by
  rw [sanitizeChars]
  split
  · simp
  · omega

theorem sanitize_filename_length (s : String) : (sanitize_filename s).length ≤ 200 :=
  sanitizeChars_length s.data

/-! ## Claims -/

/-- Claim C5: for every input string, `sanitize_filename` returns a string
containing no character of the disallowed set `< > : " / \ | ? *` and of
length at most 200. -/
theorem claim5 (s : String) :
    (∀ c ∈ (sanitize_filename s).data, c ∉ invalidChars) ∧
    (sanitize_filename s).length ≤ 200 :=
  ⟨sanitizeChars_no_invalid s.data, sanitize_filename_length s⟩

/-- Claim C7: on every date string the parser fails on, both date
normalizers return the original input unchanged (no error is raised), so
the raw string propagates into derived filename keys. -/
theorem claim7 (dp : String → Option PyDate) (s : String) (h : dp s = none) :
    parse_date dp s = s ∧ parse_portuguese_date dp s = s := by
  simp [parse_date, parse_portuguese_date, h]

/-- Witness for C7 at the always-failing parser and a concrete garbage
string. -/
theorem claim7_witness :
    parse_date dpNone "not a date" = "not a date" ∧
    parse_portuguese_date dpNone "not a date" = "not a date" :=
  claim7 dpNone "not a date" rfl

/-- Claim C4: whenever the file count differs from twice the CSV row
count, the batch renamer raises before performing any rename — the run
produces no rename at all (`none` models the raise on lines 76-78, ahead
of the rename loop). -/
theorem claim4 (data : List RowData) (files : List String)
    (h : files.length ≠ data.length * 2) :
    batch_rename data files = none := by
  simp [batch_rename, h]

/-- Witness for C4: one file, zero rows. -/
theorem claim4_witness : batch_rename [] ["a.mp4"] = none :=
  claim4 [] ["a.mp4"] (by decide)

set_option maxRecDepth 8192 in
/-- Claim C10: the downloader's `build_filename` strips `.mp4`
occurrences, sanitizes (truncating to 200) and only then appends `.mp4`:
the result always ends in `.mp4` and has length at most 204 — and the
bound 204 is attained, exceeding the sanitizer's 200-character cap. -/
theorem claim10 :
    (∀ (info : Recording) (side : String),
      ∃ base : String,
        build_filename info side = base ++ ".mp4" ∧
        base.length ≤ 200 ∧ (build_filename info side).length ≤ 204) ∧
    (∃ (info : Recording) (side : String),
      (build_filename info side).length = 204) := by
  constructor
  · intro info side
    refine ⟨sanitize_filename (pyReplace
      (info.semestre ++ " - " ++ info.disciplina ++ " - " ++ info.frente ++ " - " ++
        info.date ++ " - " ++ info.title ++ " - " ++ side ++ ".mp4") ".mp4" ""),
      rfl, sanitize_filename_length _, ?_⟩
    rw [build_filename, String.length_append]
    have := sanitize_filename_length (pyReplace
      (info.semestre ++ " - " ++ info.disciplina ++ " - " ++ info.frente ++ " - " ++
        info.date ++ " - " ++ info.title ++ " - " ++ side ++ ".mp4") ".mp4" "")
    have h4 : (".mp4" : String).length = 4 := rfl
    omega
  · exact ⟨rec_long, "esq", by decide⟩

/-- Claim C1: the reconciler's per-entry loop partitions the loaded
records: the `missing_all`, `missing_pair` and `complete` lists together
are a permutation of the input entries — every record lands in exactly
one of the three result sets, with no duplicates and no omissions. -/
theorem claim1 (entries : List Entry) (m : FileMap) :
    ((classify_entries entries m).1 ++
      ((classify_entries entries m).2.1).map Prod.fst ++
      (classify_entries entries m).2.2).Perm entries := by
  induction entries with
  | nil => simp [classify_entries]
  | cons e rest ih =>
    rcases hcl : classify_entries rest m with ⟨ma, mp, co⟩
    rw [hcl] at ih
    simp only at ih
    simp only [classify_entries, hcl]
    cases hlf : lookup_files m e.filename_base with
    | nil =>
      simpa using ih.cons e
    | cons f fs =>
      cases fs with
      | nil =>
        have h1 : ma ++ (e :: mp.map Prod.fst) ++ co =
            ma ++ e :: (mp.map Prod.fst ++ co) := by simp
        simp only [List.map_cons]
        rw [h1]
        refine List.perm_middle.trans ?_
        refine List.Perm.cons e ?_
        simpa [List.append_assoc] using ih
      | cons g gs =>
        have h1 : ma ++ mp.map Prod.fst ++ (e :: co) =
            (ma ++ mp.map Prod.fst) ++ e :: co := by simp
        rw [h1]
        refine List.perm_middle.trans ?_
        exact List.Perm.cons e ih

theorem count_lookup_le_orphan (m : FileMap) (exp : List String) (b f : String)
    (hb : b ∉ exp) :
    (lookup_files m b).count f ≤ (orphan_files m exp).count f := by
  induction m with
  | nil => simp [lookup_files, orphan_files]
  | cons kv rest ih =>
    rcases kv with ⟨k, fs⟩
    by_cases hkb : k = b
    · subst hkb
      simp only [lookup_files, orphan_files, if_neg hb, List.count_append,
        ite_true, eq_self_iff_true, if_true]
      omega
    · simp only [lookup_files, orphan_files, if_neg hkb]
      split
      · exact ih
      · rw [List.count_append]
        omega

theorem count_orphan_le_vals (m : FileMap) (exp : List String) (f : String) :
    (orphan_files m exp).count f ≤ (map_vals m).count f := by
  induction m with
  | nil => simp [orphan_files, map_vals]
  | cons kv rest ih =>
    rcases kv with ⟨k, fs⟩
    simp only [orphan_files, map_vals, List.count_append]
    split
    · omega
    · rw [List.count_append]
      omega

theorem vals_insert_file (m : FileMap) (k v : String) :
    (map_vals (insert_file m k v)).Perm (v :: map_vals m) := by
  induction m with
  | nil => simp [insert_file, map_vals]
  | cons kv rest ih =>
    rcases kv with ⟨k', vs⟩
    by_cases hk : k' = k
    · simp only [insert_file, if_pos hk, map_vals]
      have h1 : (vs ++ [v]) ++ map_vals rest = vs ++ (v :: map_vals rest) := by simp
      rw [h1]
      exact List.perm_middle
    · simp only [insert_file, if_neg hk, map_vals]
      exact (List.Perm.append_left vs ih).trans List.perm_middle

theorem vals_scan_fold (F : List String) :
    ∀ acc : FileMap,
      (map_vals (F.foldl (fun m f => insert_file m (strip_suffix_base (pyStem f)) f) acc)).Perm
        (map_vals acc ++ F) := by
  induction F with
  | nil => intro acc; simp
  | cons f F' ih =>
    intro acc
    rw [List.foldl_cons]
    refine (ih _).trans ?_
    refine (List.Perm.append_right F' (vals_insert_file acc _ f)).trans ?_
    exact List.perm_middle.symm

/-- Claim C2: for every base key of the scanned-file mapping that matches
no loaded record's derived filename key, every file grouped under that key
appears exactly once in the orphan report, no matter how many files share
the key.  (The directory listing has no duplicate names.) -/
theorem claim2 (entries : List Entry) (F : List String) (b f : String)
    (hnd : F.Nodup) (hb : b ∉ expected_bases entries)
    (hf : f ∈ lookup_files (scan_download_files F) b) :
    (orphan_files (scan_download_files F) (expected_bases entries)).count f = 1 := by
  have h1 : 0 < (lookup_files (scan_download_files F) b).count f :=
    List.count_pos_iff.mpr hf
  have h2 := count_lookup_le_orphan (scan_download_files F) (expected_bases entries) b f hb
  have h3 := count_orphan_le_vals (scan_download_files F) (expected_bases entries) f
  have h4 : (map_vals (scan_download_files F)).count f =
      ((F.filter fun f => pyEndsWith f ".mp4").count f) := by
    have := vals_scan_fold (F.filter fun f => pyEndsWith f ".mp4") []
    rw [scan_download_files]
    simpa [map_vals] using this.count_eq f
  have h5 : ((F.filter fun f => pyEndsWith f ".mp4").count f) ≤ 1 :=
    List.nodup_iff_count_le_one.mp (hnd.filter _) f
  omega

/-- Witness for C2: two files share the orphan base `orp`; each shows up
exactly once in the orphan report. -/
theorem claim2_witness :
    (orphan_files (scan_download_files ["orp_esq.mp4", "orp_dir.mp4"])
      (expected_bases [entry_missing])).count "orp_esq.mp4" = 1 :=
  claim2 [entry_missing] ["orp_esq.mp4", "orp_dir.mp4"] "orp" "orp_esq.mp4"
    (by decide) (by decide) (by decide)

theorem rename_loop_pairs :
    ∀ (rows : List RowData) (fs : List String) (pre : List RowData),
      fs.length = 2 * rows.length →
      rename_loop (pre ++ rows) fs pre.length "esq" false =
        some (spec_pair_plan rows fs) := by
  intro rows
  induction rows with
  | nil =>
    intro fs pre h
    cases fs with
    | nil => simp [rename_loop, spec_pair_plan]
    | cons f fs' => simp at h
  | cons r rs ih =>
    intro fs pre h
    rcases fs with _ | ⟨f1, _ | ⟨f2, fs'⟩⟩
    · simp at h
    · simp at h
      omega
    · have hidx : (pre ++ r :: rs)[pre.length]? = some r := by
        rw [List.getElem?_append_right (le_refl _)]
        simp
      have hlen : fs'.length = 2 * rs.length := by
        simp at h
        omega
      have hih := ih fs' (pre ++ [r]) hlen
      rw [List.append_assoc, List.singleton_append, List.length_append,
        List.length_singleton] at hih
      simp only [rename_loop, hidx, Bool.not_false, Bool.not_true, if_true,
        if_false, Option.map_some, Option.map_none, hih]
      simp [spec_pair_plan]

theorem spec_pair_plan_getElem :
    ∀ (rows : List RowData) (fs : List String) (k : Nat) (r : RowData),
      fs.length = 2 * rows.length → rows[k]? = some r →
      (spec_pair_plan rows fs)[2 * k]? =
        (fs[2 * k]?).map (fun f => (f, new_name r "esq")) ∧
      (spec_pair_plan rows fs)[2 * k + 1]? =
        (fs[2 * k + 1]?).map (fun f => (f, new_name r "dir")) := by
  intro rows
  induction rows with
  | nil =>
    intro fs k r _ hk
    simp at hk
  | cons r0 rs ih =>
    intro fs k r hlen hk
    rcases fs with _ | ⟨f1, _ | ⟨f2, fs'⟩⟩
    · simp at hlen
    · simp at hlen
      omega
    · have hfs' : fs'.length = 2 * rs.length := by
        simp at hlen
        omega
      cases k with
      | zero =>
        simp only [List.getElem?_cons_zero, Option.some_inj] at hk
        subst hk
        simp [spec_pair_plan]
      | succ k' =>
        have h2 : 2 * (k' + 1) = 2 * k' + 1 + 1 := by omega
        simp only [List.getElem?_cons_succ] at hk
        have := ih fs' k' r hfs' hk
        simpa [spec_pair_plan, h2, List.getElem?_cons_succ] using this

/-- Claim C3: with exactly 2×N sorted media files and N rows, the batch
renamer renames the k-th sorted pair of files from the k-th row's fields,
tagging the first of each pair `esq` and the second `dir`, advancing one
row per pair — its rename list equals the pairwise plan, and the plan
indexes as the claim states. -/
theorem claim3 (data : List RowData) (files : List String)
    (h : files.length = data.length * 2) :
    batch_rename data files = some (spec_pair_plan data (sort_files files)) ∧
    ∀ (k : Nat) (r : RowData), data[k]? = some r →
      (spec_pair_plan data (sort_files files))[2 * k]? =
        ((sort_files files)[2 * k]?).map (fun f => (f, new_name r "esq")) ∧
      (spec_pair_plan data (sort_files files))[2 * k + 1]? =
        ((sort_files files)[2 * k + 1]?).map (fun f => (f, new_name r "dir")) := by
  have hlen : (sort_files files).length = 2 * data.length := by
    rw [sort_files, List.length_insertionSort]
    omega
  constructor
  · have := rename_loop_pairs data (sort_files files) [] hlen
    simp only [List.nil_append, List.length_nil] at this
    simp [batch_rename, h, this]
  · intro k r hk
    exact spec_pair_plan_getElem data (sort_files files) k r hlen hk

/-- Witness for C3: one row, two files (deliberately unsorted on input). -/
theorem claim3_witness :
    batch_rename [row_w] ["b.mp4", "a.mp4"] =
      some (spec_pair_plan [row_w] (sort_files ["b.mp4", "a.mp4"])) :=
  (claim3 [row_w] ["b.mp4", "a.mp4"] (by decide)).1

set_option maxRecDepth 8192 in
/-- Claim C6: the spec's example record derives the key
`2025.1 - Matemática - A - 2025-02-10 - Aula 1`, and with the scanned
directory holding only that key plus `_esq.mp4`, the reconciler
classifies the record as partial with the `_esq` file as the single
existing file. -/
theorem claim6 :
    build_filename_base dp_fev rec_c6 =
      "2025.1 - Matemática - A - 2025-02-10 - Aula 1" ∧
    classify_entries [rec_c6_loaded]
        (scan_download_files
          ["2025.1 - Matemática - A - 2025-02-10 - Aula 1_esq.mp4"]) =
      ([],
       [(rec_c6_loaded, "2025.1 - Matemática - A - 2025-02-10 - Aula 1_esq.mp4")],
       []) := by
  constructor
  · decide
  · decide

theorem except_bind_ok {α β : Type} (a : α) (k : α → Except Unit β) :
    (Except.ok a >>= k) = k a := rfl

theorem strip_items_error :
    ∀ (l : List (String × Option String)) (k : String),
      (k, (none : Option String)) ∈ l → strip_items l = Except.error () := by
  intro l
  induction l with
  | nil => intro k hk; simp at hk
  | cons kv rest ih =>
    intro k hk
    rcases kv with ⟨k', v?⟩
    cases v? with
    | none => rfl
    | some v =>
      rcases List.mem_cons.mp hk with heq | hmem
      · simp at heq
      · rw [strip_items, ih k hmem]
        rfl

theorem dict_row_has_none (header : List String) :
    ∀ row : List String, row.length < header.length →
      ∃ k, (k, (none : Option String)) ∈ dict_row header row := by
  induction header with
  | nil => intro row h; simp at h
  | cons hd hs ih =>
    intro row h
    cases row with
    | nil => exact ⟨hd, by simp [dict_row]⟩
    | cons v vs =>
      obtain ⟨k, hk⟩ := ih vs (by simp at h; omega)
      exact ⟨k, by simp [dict_row, hk]⟩

theorem normalize_row_error (header row : List String)
    (h : row.length < header.length) :
    normalize_row header row = Except.error () := by
  rw [normalize_row, if_neg (by omega)]
  obtain ⟨k, hk⟩ := dict_row_has_none header row h
  exact strip_items_error _ k hk

theorem load_csv_entries_error (dp : String → Option PyDate) (header : List String) :
    ∀ (rows : List (List String)) (acc : List Entry) (row : List String),
      row ∈ rows → row ≠ [] → row.length < header.length →
      rows.foldlM
        (fun acc row =>
          if row = [] then Except.ok acc
          else do
            let d ← normalize_row header row
            let e := mk_entry d
            if e.url ≠ "" then
              Except.ok (acc ++ [{ e with filename_base := build_filename_base dp e }])
            else
              Except.ok acc)
        acc = Except.error () := by
  intro rows
  induction rows with
  | nil => intro acc row h; simp at h
  | cons x xs ih =>
    intro acc row hmem hne hlt
    rw [List.foldlM_cons]
    rcases List.mem_cons.mp hmem with rfl | hmem'
    · rw [if_neg hne, normalize_row_error header row hlt]
      rfl
    · by_cases hx : x = []
      · rw [if_pos hx, except_bind_ok]
        exact ih acc row hmem' hne hlt
      · rw [if_neg hx]
        cases hnr : normalize_row header x with
        | error e =>
          obtain ⟨⟩ := e
          rfl
        | ok d =>
          rw [except_bind_ok]
          by_cases hu : (mk_entry d).url ≠ ""
          · rw [if_pos hu, except_bind_ok]
            exact ih _ row hmem' hne hlt
          · rw [if_neg hu, except_bind_ok]
            exact ih _ row hmem' hne hlt

/-- Counterexample to C8 as stated: a one-field row under the script's
own seven-column header is NOT silently tolerated by the
reconciliation/reporting loader — normalizing the `DictReader`'s
`None`-filled values raises an uncaught `AttributeError` (modelled as
`Except.error ()`), aborting the load. -/
theorem claim8_cex :
    load_csv_entries dpNone header7 [["10/fev"]] = Except.error () := rfl

/-- Claim C8 (amended): a data row with fewer fields than required is a
fatal error in the renaming loader, is a fatal (uncaught) error in the
reconciliation/reporting loader as well, and is silently skipped — with
no error — only by the downloading loader. -/
theorem claim8 (dp : String → Option PyDate) (row : List String)
    (header : List String) (h5 : row.length < 5) (hne : row ≠ [])
    (hlt : row.length < header.length) :
    parse_rename_rows dp [row] = Except.error () ∧
    load_csv_entries dp header [row] = Except.error () ∧
    load_recordings_from_csv dp [row] = [] := by
  refine ⟨?_, ?_, ?_⟩
  · have hrow : parse_rename_row dp row = Except.error () := by
      rw [parse_rename_row, dif_pos h5]
    rw [parse_rename_rows, hrow]
    rfl
  · exact load_csv_entries_error dp header [row] [] row (by simp) hne hlt
  · rw [load_recordings_from_csv, List.foldl_cons, dif_neg (by omega),
      List.foldl_nil]

/-- Witness for the amended C8 at the one-field row `["x"]` under the
script's seven-column header. -/
theorem claim8_witness :
    parse_rename_rows dpNone [["x"]] = Except.error () ∧
    load_csv_entries dpNone header7 [["x"]] = Except.error () ∧
    load_recordings_from_csv dpNone [["x"]] = [] :=
  claim8 dpNone ["x"] header7 (by decide) (by decide) (by decide)

/-- Counterexample to C9 as stated: a reconciliation run over one record
and an empty directory creates a report file
(`check_missing_all.csv`), so "never creates any file" fails. -/
theorem claim9_cex :
    FsEffect.create (OUTPUT_DIR ++ "/check_missing_all.csv") ∈
      check_downloads_effects [entry_missing] [] := by decide

/-- Claim C9 (amended): the reconciliation run deletes no file, and the
only files it ever creates are the three report CSVs written into the
output directory — it never touches the scanned media files. -/
theorem claim9 (entries : List Entry) (m : FileMap) :
    (∀ p : String, FsEffect.delete p ∉ check_downloads_effects entries m) ∧
    (∀ eff ∈ check_downloads_effects entries m,
      eff = FsEffect.create (OUTPUT_DIR ++ "/check_missing_all.csv") ∨
      eff = FsEffect.create (OUTPUT_DIR ++ "/check_missing_pair.csv") ∨
      eff = FsEffect.create (OUTPUT_DIR ++ "/check_orphan_files.csv")) := by
  constructor
  · intro p hp
    rw [check_downloads_effects] at hp
    simp only [List.mem_append] at hp
    rcases hp with (hp | hp) | hp <;> revert hp <;> split <;> simp
  · intro eff heff
    rw [check_downloads_effects] at heff
    simp only [List.mem_append] at heff
    rcases heff with (hp | hp) | hp <;> revert hp <;> split <;> simp <;>
      intro h <;> simp [h]

end Scripts
